import Mathlib

/-!
# Event dispatch and filter registry of the `ethereal` UI shell

A shallow embedding of `ethereal/ext_app.go` (the per-window application session:
`run`, `stop`, `mainLoop`, `Watch`) and of the filter registry of `ethereal/ui_lib.go`
(`RegisterFilter`, `RegisterFilterString`, `RegisterFilterCallback`, `UninstallFilter`).

Conventions of the embedding:

* A Go `map[K]V` is an association list (`GoMap`). Reading a missing key gives the zero
  value of the Go type, here `none` / the empty slice. `range` over the map visits the
  entries of the list from left to right; Go leaves the order unspecified, and every
  statement below that ranges over a map holds for every list with pairwise distinct
  keys, hence for every order.
* Calls made on external collaborators (the container, the reactor, the root window) are
  recorded as values of a call type, in program order.
* Types that belong to the `eth-go` libraries (`ethchain.Block`, `ethstate.Message`,
  `ethchain.Filter`, filter criteria objects) are type parameters; the library functions
  the code calls on them are function parameters.
* Go `int` identifiers are `Int`; no arithmetic is performed on them.
-/

namespace Ethereal

/-! ## Go maps -/

/-- A Go map, as the list of its entries. -/
abbrev GoMap (κ α : Type) := List (κ × α)

namespace GoMap

variable {κ α : Type}

/-- Lookup `m[k]`; `none` when the key is absent. -/
def get? [DecidableEq κ] : GoMap κ α → κ → Option α
  | [], _ => none
  | (k', v) :: m, k => if k' = k then some v else get? m k

/-- The builtin `delete(m, k)`. -/
def delete [DecidableEq κ] (m : GoMap κ α) (k : κ) : GoMap κ α :=
  m.filter (fun e => decide (e.1 ≠ k))

/-- Assignment `m[k] = v`: any entry under `k` is replaced. -/
def set [DecidableEq κ] (m : GoMap κ α) (k : κ) (v : α) : GoMap κ α :=
  delete m k ++ [(k, v)]

/-- Lookup of a slice-valued map: a missing key reads as the nil slice. -/
def getD [DecidableEq κ] {β : Type} (m : GoMap κ (List β)) (k : κ) : List β :=
  (get? m k).getD []

/-- The keys of the map, in iteration order. -/
def keys (m : GoMap κ α) : List κ := m.map Prod.fst

/-- A well-formed map holds every key at most once. -/
def WF (m : GoMap κ α) : Prop := (keys m).Nodup

instance [DecidableEq κ] (m : GoMap κ α) : Decidable (WF m) :=
  inferInstanceAs (Decidable (List.Nodup _))

end GoMap

/-! ## The application session (`ext_app.go`) -/

/-- The dynamic value carried in `ethreact.Event.Resource` (an `interface{}`):
the nil interface, a `*ethchain.Block`, an `ethstate.Messages`, or a value of any
other dynamic type (distinguished by a tag). -/
inductive Resource (Block Message : Type) where
  | nil
  | block (b : Block)
  | messages (ms : List Message)
  | other (tag : Nat)

/-- The struct `ethreact.Event`: a resource and the name of the topic. -/
structure Event (Block Message : Type) where
  Resource : Resource Block Message
  Name : String

/-- The calls `mainLoop` makes on its container (`AppContainer.NewBlock`,
`AppContainer.Messages`). -/
inductive ContainerCall (Block Message : Type) where
  | NewBlock (block : Block)
  | Messages (msgs : List Message) (id : String)
  deriving DecidableEq

/-- The case taken by one execution of the `select` statement of `mainLoop`. -/
inductive Select (Block Message : Type) where
  | quitChan
  | blockChan (block : Event Block Message)
  | messageChan (msg : Event Block Message)

/-- How control leaves a piece of the loop: it keeps looping, it left through
`break out`, or a panic is unwinding the goroutine. -/
inductive LoopStatus where
  | running
  | exited
  | panicked
  deriving DecidableEq

/-- The part of `ExtApplication` the dispatch loop reads: the session's filter map. -/
structure ExtApplication (Filter : Type) where
  filters : GoMap String Filter

section Session

variable {Block Message Filter Object : Type}

/-- `NewExtApplication`: the filter map starts empty (`make(map[string]*ethchain.Filter)`). -/
def NewExtApplication : ExtApplication Filter :=
  { filters := [] }

/-- `ExtApplication.Watch`: `self.filters[identifier] = ethchain.NewFilterFromMap(filterOptions, self.eth)`.
The library constructor is the parameter `NewFilterFromMap`. -/
def ExtApplication.Watch (NewFilterFromMap : Object → Filter) (self : ExtApplication Filter)
    (filterOptions : Object) (identifier : String) : ExtApplication Filter :=
  { self with filters := self.filters.set identifier (NewFilterFromMap filterOptions) }

/-- The loop `for id, filter := range app.filters { ... }` of the message case.
`FilterMessages filter messages` is `none` when the library call panics; a panic is not
recovered anywhere in `mainLoop`, so it ends the range at once. -/
def rangeFilters (FilterMessages : Filter → List Message → Option (List Message))
    (messages : List Message) :
    GoMap String Filter → List (ContainerCall Block Message) × LoopStatus
  | [] => ([], LoopStatus.running)
  | (id, filter) :: rest =>
    match FilterMessages filter messages with
    | none => ([], LoopStatus.panicked)
    | some msgs =>
      let r := rangeFilters FilterMessages messages rest
      ((if msgs.length > 0 then [ContainerCall.Messages msgs id] else []) ++ r.1, r.2)

/-- One iteration of the `for { select { ... } }` of `ExtApplication.mainLoop`, given the
case the `select` took. -/
def ExtApplication.iteration (FilterMessages : Filter → List Message → Option (List Message))
    (app : ExtApplication Filter) :
    Select Block Message → List (ContainerCall Block Message) × LoopStatus
  | Select.quitChan => ([], LoopStatus.exited)
  | Select.blockChan block =>
    match block.Resource with
    | Resource.block b => ([ContainerCall.NewBlock b], LoopStatus.running)
    | _ => ([], LoopStatus.running)
  | Select.messageChan msg =>
    match msg.Resource with
    | Resource.messages messages => rangeFilters FilterMessages messages app.filters
    | _ => ([], LoopStatus.running)

/-- `ExtApplication.mainLoop`, run on the sequence of cases its `select` takes. The status
is `running` when the sequence is used up and the loop is blocked in `select`. -/
def ExtApplication.mainLoop (FilterMessages : Filter → List Message → Option (List Message))
    (app : ExtApplication Filter) :
    List (Select Block Message) → List (ContainerCall Block Message) × LoopStatus
  | [] => ([], LoopStatus.running)
  | s :: rest =>
    match app.iteration FilterMessages s with
    | (calls, LoopStatus.running) =>
      let r := ExtApplication.mainLoop FilterMessages app rest
      (calls ++ r.1, r.2)
    | (calls, st) => (calls, st)

/-- The `Messages` calls of a call sequence that carry the identifier `id`. -/
def messagesCallsFor (id : String) (calls : List (ContainerCall Block Message)) :
    List (ContainerCall Block Message) :=
  calls.filter (fun c => match c with
    | ContainerCall.Messages _ i => decide (i = id)
    | ContainerCall.NewBlock _ => false)

/-- A library matcher that always returns, seen as one that may panic. -/
def returning (FilterMessages : Filter → List Message → List Message) :
    Filter → List Message → Option (List Message) :=
  fun f b => some (FilterMessages f b)

end Session

/-! ### Session start and stop -/

/-- The four channels owned by an `ExtApplication`. -/
inductive Chan where
  | blockChan
  | messageChan
  | quitChan
  | watcherQuitChan
  deriving DecidableEq

/-- The calls and channel operations `run` and `stop` perform, in program order. -/
inductive SessionCall (Err : Type) where
  | Engine
  | SetVar (name : String)
  | Create
  | Errorln (err : Err)
  | goMainLoop
  | Subscribe (topic : String) (ch : Chan)
  | NewWatcher (ch : Chan)
  | Window
  | Show
  | Wait
  | Unsubscribe (topic : String) (ch : Chan)
  | send (ch : Chan)
  | close (ch : Chan)
  | Destroy
  deriving DecidableEq

/-- What a caller of `run` observes: the calls performed, and the values handed back to
the caller. The Go method is declared `func (app *ExtApplication) run()`, without result
parameters, so `results` is always empty. -/
structure RunOutcome (Err : Type) where
  calls : List (SessionCall Err)
  results : List Err

section Lifecycle

variable {Err : Type}

/-- `ExtApplication.stop`. -/
def ExtApplication.stop : List (SessionCall Err) :=
  [ SessionCall.Unsubscribe "newBlock" Chan.blockChan,
    SessionCall.send Chan.quitChan,
    SessionCall.send Chan.watcherQuitChan,
    SessionCall.close Chan.blockChan,
    SessionCall.close Chan.quitChan,
    SessionCall.Destroy ]

/-- `ExtApplication.run`; `create` is what `app.container.Create()` returns (`none` for a
nil error). The run is complete: `win.Wait()` returns when the window is closed. -/
def ExtApplication.run (create : Option Err) : RunOutcome Err :=
  let setup : List (SessionCall Err) :=
    [SessionCall.Engine, SessionCall.SetVar "eth", SessionCall.SetVar "ui", SessionCall.Create]
  match create with
  | some err => { calls := setup ++ [SessionCall.Errorln err], results := [] }
  | none =>
    { calls := setup ++
        [ SessionCall.goMainLoop,
          SessionCall.Subscribe "newBlock" Chan.blockChan,
          SessionCall.Subscribe "messages" Chan.messageChan,
          SessionCall.NewWatcher Chan.watcherQuitChan,
          SessionCall.Window,
          SessionCall.Show,
          SessionCall.Wait ] ++ ExtApplication.stop,
      results := [] }

/-- Whether a call is `reactor.Subscribe(topic, _)`. -/
def isSubscribe (topic : String) : SessionCall Err → Bool
  | SessionCall.Subscribe t _ => decide (t = topic)
  | _ => false

/-- Whether a call is `reactor.Unsubscribe(topic, _)`. -/
def isUnsubscribe (topic : String) : SessionCall Err → Bool
  | SessionCall.Unsubscribe t _ => decide (t = topic)
  | _ => false

/-- Whether a call is some `reactor.Subscribe`. -/
def isAnySubscribe : SessionCall Err → Bool
  | SessionCall.Subscribe _ _ => true
  | _ => false

/-- Whether a call is `app.container.Create()`. -/
def isCreate : SessionCall Err → Bool
  | SessionCall.Create => true
  | _ => false

/-- Whether a call launches the dispatch loop (`go app.mainLoop()`). -/
def isGoMainLoop : SessionCall Err → Bool
  | SessionCall.goMainLoop => true
  | _ => false

end Lifecycle

/-! ## The filter registry (`ui_lib.go`) -/

/-- The call `self.win.Root().Call("invokeFilterCallback", payload, seed, callbackSeed)`. -/
inductive RootCall where
  | invokeFilterCallback (payload : String) (seed : Int) (callbackSeed : Int)
  deriving DecidableEq

/-- Modelled from the spec: the struct `ethpipe.JSFilter` is declared outside these
sources. By the data model a filter holds its match configuration (here the criteria
object it was built from, `none` for a nil map), an optional message-delivery callback
and an optional block-delivery callback; the sources assign the fields `MessageCallback`
and `BlockCallback`. A callback is a Go closure over the registry pointer `self`: it
reads `self.filterCallbacks` when it is called, so it is a function of the listener lists
at that time. -/
structure JSFilter (Block Message Object : Type) where
  object : Option Object
  BlockCallback : Option (GoMap Int (List Int) → Block → List RootCall)
  MessageCallback : Option (GoMap Int (List Int) → List Message → List RootCall)

/-- The struct `GuiFilter`: an embedded `*ethpipe.JSFilter` and the seed. -/
structure GuiFilter (Block Message Object : Type) extends JSFilter Block Message Object where
  seed : Int

/-- The registry fields of `UiLib`. Filters are stored by pointer and a stored pointer is
never nil, so an entry of `filters` is the filter itself. -/
structure UiLib (Block Message Object : Type) where
  filterCallbacks : GoMap Int (List Int)
  filters : GoMap Int (GuiFilter Block Message Object)

section Registry

variable {Block Message Object : Type}

/-- Modelled from the spec: the constructor `ethpipe.NewJSFilterFromMap` lies outside these
sources; it constructs a filter from criteria, with no delivery callback attached yet. -/
def NewJSFilterFromMap (object : Option Object) : JSFilter Block Message Object :=
  { object := object, BlockCallback := none, MessageCallback := none }

/-- `NewUiLib`: both maps start empty. -/
def NewUiLib : UiLib Block Message Object :=
  { filterCallbacks := [], filters := [] }

/-- `UiLib.RegisterFilter`. The method `filter.MessagesToJson` of the library is the
parameter `MessagesToJson`, applied to the criteria of its receiver. The callback is set
through the pointer stored in the map, so the stored filter carries it. -/
def UiLib.RegisterFilter (MessagesToJson : Option Object → List Message → String)
    (self : UiLib Block Message Object) (object : Option Object) (seed : Int) :
    UiLib Block Message Object :=
  let filter : GuiFilter Block Message Object :=
    { toJSFilter := NewJSFilterFromMap object, seed := seed }
  let filter : GuiFilter Block Message Object :=
    { filter with
      MessageCallback := some (fun filterCallbacks messages =>
        (filterCallbacks.getD seed).map (fun callbackSeed =>
          RootCall.invokeFilterCallback (MessagesToJson filter.object messages) seed callbackSeed)) }
  { self with filters := self.filters.set seed filter }

/-- `UiLib.RegisterFilterString`. -/
def UiLib.RegisterFilterString (self : UiLib Block Message Object) (typ : String) (seed : Int) :
    UiLib Block Message Object :=
  let filter : GuiFilter Block Message Object :=
    { toJSFilter := NewJSFilterFromMap none, seed := seed }
  let filter : GuiFilter Block Message Object :=
    if typ = "chain" then
      { filter with
        BlockCallback := some (fun filterCallbacks _block =>
          (filterCallbacks.getD seed).map (fun callbackSeed =>
            RootCall.invokeFilterCallback "\x7b\x7d" seed callbackSeed)) }
    else filter
  { self with filters := self.filters.set seed filter }

/-- `UiLib.RegisterFilterCallback`:
`self.filterCallbacks[seed] = append(self.filterCallbacks[seed], cbSeed)`. -/
def UiLib.RegisterFilterCallback (self : UiLib Block Message Object) (seed cbSeed : Int) :
    UiLib Block Message Object :=
  { self with
    filterCallbacks := self.filterCallbacks.set seed (self.filterCallbacks.getD seed ++ [cbSeed]) }

/-- `UiLib.UninstallFilter`. The second component lists the filters on which
`filter.Uninstall()` was called. -/
def UiLib.UninstallFilter (self : UiLib Block Message Object) (seed : Int) :
    UiLib Block Message Object × List (GuiFilter Block Message Object) :=
  match self.filters.get? seed with
  | some filter => ({ self with filters := self.filters.delete seed }, [filter])
  | none => (self, [])

/-- Modelled from the spec: the loop that drives a filter lies outside these sources. This
is the delivery of a matched batch to the filter registered under `seed`: its message
callback, when it has one, is called on the batch. -/
def UiLib.fireMessageCallback (self : UiLib Block Message Object) (seed : Int)
    (messages : List Message) : List RootCall :=
  match self.filters.get? seed with
  | none => []
  | some filter =>
    match filter.MessageCallback with
    | none => []
    | some callback => callback self.filterCallbacks messages

/-- Modelled from the spec: the delivery of a block to the filter registered under `seed`:
its block callback, when it has one, is called on the block. -/
def UiLib.fireBlockCallback (self : UiLib Block Message Object) (seed : Int)
    (block : Block) : List RootCall :=
  match self.filters.get? seed with
  | none => []
  | some filter =>
    match filter.BlockCallback with
    | none => []
    | some callback => callback self.filterCallbacks block

/-- The deliveries of a call sequence addressed to the listener `callbackSeed`. -/
def deliveriesTo (callbackSeed : Int) (calls : List RootCall) : List RootCall :=
  calls.filter (fun c => match c with
    | RootCall.invokeFilterCallback _ _ cb => decide (cb = callbackSeed))

end Registry

/-! ## Facts about Go maps -/

namespace GoMap

variable {κ α : Type} [DecidableEq κ]

theorem get?_append (m₁ m₂ : GoMap κ α) (k : κ) :
    get? (m₁ ++ m₂) k = (get? m₁ k).orElse (fun _ => get? m₂ k) := by
  induction m₁ with
  | nil => simp [get?]
  | cons e m ih =>
    obtain ⟨k', v⟩ := e
    by_cases h : k' = k
    · simp [get?, h]
    · simp [get?, h, ih]

theorem get?_delete_self (m : GoMap κ α) (k : κ) : get? (delete m k) k = none := by
  induction m with
  | nil => simp [delete, get?]
  | cons e m ih =>
    obtain ⟨k', v⟩ := e
    by_cases h : k' = k
    · simpa [delete, List.filter_cons, h] using ih
    · simpa [delete, List.filter_cons, h, get?] using ih

theorem get?_delete_ne (m : GoMap κ α) {k k' : κ} (hne : k' ≠ k) :
    get? (delete m k) k' = get? m k' := by
  induction m with
  | nil => simp [delete, get?]
  | cons e m ih =>
    obtain ⟨k₀, v⟩ := e
    by_cases h : k₀ = k
    · subst h
      have h' : k₀ ≠ k' := fun h₁ => hne h₁.symm
      simpa [delete, List.filter_cons, get?, h'] using ih
    · by_cases h₂ : k₀ = k'
      · subst h₂
        simp [delete, List.filter_cons, h, get?]
      · simpa [delete, List.filter_cons, h, get?, h₂] using ih

theorem get?_set_self (m : GoMap κ α) (k : κ) (v : α) : get? (set m k v) k = some v := by
  simp [set, get?_append, get?_delete_self, get?]

theorem get?_set_ne (m : GoMap κ α) {k k' : κ} (v : α) (hne : k' ≠ k) :
    get? (set m k v) k' = get? m k' := by
  have h : k ≠ k' := fun h => hne h.symm
  simp [set, get?_append, get?_delete_ne m hne, get?, h]

theorem getD_set_self {β : Type} (m : GoMap κ (List β)) (k : κ) (v : List β) :
    getD (set m k v) k = v := by
  simp [getD, get?_set_self]

theorem getD_set_ne {β : Type} (m : GoMap κ (List β)) {k k' : κ} (v : List β) (hne : k' ≠ k) :
    getD (set m k v) k' = getD m k' := by
  simp [getD, get?_set_ne m v hne]

theorem get?_eq_none_of_not_mem_keys (m : GoMap κ α) (k : κ) (h : k ∉ keys m) :
    get? m k = none := by
  induction m with
  | nil => simp [get?]
  | cons e m ih =>
    obtain ⟨k', v⟩ := e
    simp only [keys, List.map_cons, List.mem_cons, not_or] at h
    have h' : k' ≠ k := fun h₁ => h.1 h₁.symm
    simpa [get?, h'] using ih h.2

theorem keys_delete_subset (m : GoMap κ α) (k k' : κ) (h : k' ∈ keys (delete m k)) :
    k' ∈ keys m := by
  simp only [keys, delete, List.mem_map, List.mem_filter] at h ⊢
  obtain ⟨e, ⟨he, _⟩, rfl⟩ := h
  exact ⟨e, he, rfl⟩

theorem not_mem_keys_delete (m : GoMap κ α) (k : κ) : k ∉ keys (delete m k) := by
  simp only [keys, delete, List.mem_map, List.mem_filter, not_exists, not_and]
  intro e he hk
  simpa [hk] using he.2

theorem WF_delete (m : GoMap κ α) (k : κ) (h : WF m) : WF (delete m k) := by
  unfold WF keys delete at *
  exact (List.filter_sublist m).map Prod.fst |>.nodup h

theorem WF_set (m : GoMap κ α) (k : κ) (v : α) (h : WF m) : WF (set m k v) := by
  have h₁ := WF_delete m k h
  have h₂ := not_mem_keys_delete m k
  unfold WF keys set at *
  rw [List.map_append, List.nodup_append]
  refine ⟨h₁, by simp, ?_⟩
  intro a ha hb
  simp only [List.map_cons, List.map_nil, List.mem_singleton] at hb
  subst hb
  exact h₂ ha

end GoMap

/-! ## The dispatch loop -/

section SessionFacts

variable {Block Message Filter Object : Type}

/-- Every session built from `NewExtApplication` by `Watch` calls has a well-formed
filter map. -/
theorem watch_preserves_WF (NewFilterFromMap : Object → Filter) (self : ExtApplication Filter)
    (filterOptions : Object) (identifier : String) (h : self.filters.WF) :
    (self.Watch NewFilterFromMap filterOptions identifier).filters.WF :=
  GoMap.WF_set _ _ _ h

theorem newExtApplication_WF : (NewExtApplication : ExtApplication Filter).filters.WF := by
  simp [NewExtApplication, GoMap.WF, GoMap.keys]

theorem rangeFilters_returning_status (FilterMessages : Filter → List Message → List Message)
    (B : List Message) (l : GoMap String Filter) :
    (rangeFilters (returning FilterMessages) B l :
      List (ContainerCall Block Message) × LoopStatus).2 = LoopStatus.running := by
  induction l with
  | nil => rfl
  | cons e l ih =>
    obtain ⟨id, f⟩ := e
    simpa [rangeFilters, returning] using ih

theorem rangeFilters_returning_mem (FilterMessages : Filter → List Message → List Message)
    (B : List Message) (l : GoMap String Filter) (c : ContainerCall Block Message)
    (hc : c ∈ (rangeFilters (returning FilterMessages) B l).1) :
    ∃ id f, (id, f) ∈ l ∧ c = ContainerCall.Messages (FilterMessages f B) id
      ∧ FilterMessages f B ≠ [] := by
  induction l with
  | nil => simp [rangeFilters] at hc
  | cons e l ih =>
    obtain ⟨id, f⟩ := e
    simp only [rangeFilters, returning, List.mem_append] at hc
    rcases hc with hc | hc
    · by_cases hlen : (FilterMessages f B).length > 0
      · simp only [hlen, if_true, List.mem_singleton] at hc
        exact ⟨id, f, List.mem_cons_self _ _, hc, List.ne_nil_of_length_pos hlen⟩
      · simp [hlen] at hc
    · obtain ⟨id', f', hmem, heq, hne⟩ := ih hc
      exact ⟨id', f', List.mem_cons_of_mem _ hmem, heq, hne⟩

theorem get?_of_mem_WF (l : GoMap String Filter) (hwf : l.WF) (id : String) (f : Filter)
    (h : (id, f) ∈ l) : l.get? id = some f := by
  induction l with
  | nil => simp at h
  | cons e l ih =>
    obtain ⟨k, v⟩ := e
    simp only [GoMap.WF, GoMap.keys, List.map_cons, List.nodup_cons] at hwf
    rcases List.mem_cons.mp h with h | h
    · simp only [Prod.mk.injEq] at h
      simp [GoMap.get?, h.1, h.2]
    · have hk : k ≠ id := by
        intro hk
        apply hwf.1
        exact List.mem_map.mpr ⟨(id, f), h, hk.symm⟩
      simpa [GoMap.get?, hk] using ih hwf.2 h

theorem messagesCallsFor_rangeFilters (FilterMessages : Filter → List Message → List Message)
    (B : List Message) (l : GoMap String Filter) (hwf : l.WF) (id : String) :
    messagesCallsFor id (rangeFilters (returning FilterMessages) B l :
        List (ContainerCall Block Message) × LoopStatus).1 =
      match l.get? id with
      | some f =>
        if (FilterMessages f B).length > 0 then [ContainerCall.Messages (FilterMessages f B) id]
        else []
      | none => [] := by
  induction l with
  | nil => simp [rangeFilters, messagesCallsFor, GoMap.get?]
  | cons e l ih =>
    obtain ⟨k, f⟩ := e
    simp only [GoMap.WF, GoMap.keys, List.map_cons, List.nodup_cons] at hwf
    have ih' := ih hwf.2
    by_cases hk : k = id
    · subst hk
      have hnone : GoMap.get? l k = none := GoMap.get?_eq_none_of_not_mem_keys l k hwf.1
      rw [hnone] at ih'
      simp only [messagesCallsFor] at ih'
      by_cases hlen : (FilterMessages f B).length > 0
      · simp [rangeFilters, returning, messagesCallsFor, GoMap.get?, hlen, List.filter_cons, ih']
      · simp [rangeFilters, returning, messagesCallsFor, GoMap.get?, hlen, ih']
    · simp only [messagesCallsFor] at ih'
      by_cases hlen : (FilterMessages f B).length > 0
      · simp [rangeFilters, returning, messagesCallsFor, GoMap.get?, hlen, List.filter_cons, hk,
          ih']
      · simp [rangeFilters, returning, messagesCallsFor, GoMap.get?, hlen, hk, ih']

theorem rangeFilters_mem_isMessages
    (FilterMessages : Filter → List Message → Option (List Message))
    (B : List Message) (l : GoMap String Filter) (c : ContainerCall Block Message)
    (hc : c ∈ (rangeFilters FilterMessages B l).1) :
    ∃ msgs id, c = ContainerCall.Messages msgs id := by
  induction l with
  | nil => simp [rangeFilters] at hc
  | cons e l ih =>
    obtain ⟨id, f⟩ := e
    simp only [rangeFilters] at hc
    cases hfm : FilterMessages f B with
    | none => simp [hfm] at hc
    | some msgs =>
      simp only [hfm, List.mem_append] at hc
      rcases hc with hc | hc
      · by_cases hlen : msgs.length > 0
        · simp only [hlen, if_true, List.mem_singleton] at hc
          exact ⟨msgs, id, hc⟩
        · simp [hlen] at hc
      · exact ih hc

/-- The `Messages` calls made while ranging over filters whose matching returns. -/
theorem rangeFilters_until_panic (FilterMessages : Filter → List Message → Option (List Message))
    (B : List Message) (pre post : GoMap String Filter) (id : String) (f : Filter)
    (hpre : ∀ e ∈ pre, (FilterMessages e.2 B).isSome = true)
    (hpanic : FilterMessages f B = none) :
    (rangeFilters FilterMessages B (pre ++ (id, f) :: post) :
        List (ContainerCall Block Message) × LoopStatus) =
      (pre.flatMap (fun e =>
        match FilterMessages e.2 B with
        | some msgs => if msgs.length > 0 then [ContainerCall.Messages msgs e.1] else []
        | none => []), LoopStatus.panicked) := by
  induction pre with
  | nil => simp [rangeFilters, hpanic]
  | cons e pre ih =>
    obtain ⟨k, g⟩ := e
    have hg := hpre (k, g) (List.mem_cons_self _ _)
    have ih' := ih (fun e he => hpre e (List.mem_cons_of_mem _ he))
    cases hfm : FilterMessages g B with
    | none => simp [hfm] at hg
    | some msgs => simp [rangeFilters, hfm, ih']

/-- C1: one iteration of the dispatch loop on a message-batch event with batch `B`, over
a session filter map with distinct keys and a matcher that returns, keeps the loop
running and calls `Messages(m, id)` exactly once for each filter id of the map whose
`FilterMessages(B)` is non-empty, with `m` that matched subset; it makes no `Messages`
call for a filter whose match is empty nor for an id that is not in the map, and every
call it makes is such a `Messages` call. -/
theorem mainLoop_messages_delivers_each_match_once
    (FilterMessages : Filter → List Message → List Message) (app : ExtApplication Filter)
    (hwf : app.filters.WF) (B : List Message) (name : String) :
    (app.iteration (returning FilterMessages)
        (Select.messageChan (⟨Resource.messages B, name⟩ : Event Block Message))).2
      = LoopStatus.running
    ∧ (∀ id : String,
        messagesCallsFor id (app.iteration (returning FilterMessages)
          (Select.messageChan (⟨Resource.messages B, name⟩ : Event Block Message))).1 =
        match app.filters.get? id with
        | some f =>
          if (FilterMessages f B).length > 0
          then [ContainerCall.Messages (FilterMessages f B) id] else []
        | none => [])
    ∧ (∀ c ∈ (app.iteration (returning FilterMessages)
          (Select.messageChan (⟨Resource.messages B, name⟩ : Event Block Message))).1,
        ∃ id f, app.filters.get? id = some f
          ∧ c = ContainerCall.Messages (FilterMessages f B) id ∧ FilterMessages f B ≠ []) := by
  refine ⟨?_, ?_, ?_⟩
  · exact rangeFilters_returning_status FilterMessages B app.filters
  · intro id
    exact messagesCallsFor_rangeFilters FilterMessages B app.filters hwf id
  · intro c hc
    obtain ⟨id, f, hmem, heq, hne⟩ :=
      rangeFilters_returning_mem FilterMessages B app.filters c hc
    exact ⟨id, f, get?_of_mem_WF app.filters hwf id f hmem, heq, hne⟩

/-- Witness for C1: filters `a` (keeps messages `≥ 5`) and `b` (keeps messages `≥ 100`) on
the batch `[1, 7]`: one call for `a` with `[7]`, none for `b`. -/
theorem mainLoop_messages_delivers_each_match_once_witness :
    GoMap.WF ([("a", 5), ("b", 100)] : GoMap String Nat)
    ∧ messagesCallsFor "a" (ExtApplication.iteration
        (returning (fun (f : Nat) (b : List Nat) => b.filter (fun m => decide (f ≤ m))))
        ⟨[("a", 5), ("b", 100)]⟩
        (Select.messageChan (⟨Resource.messages [1, 7], "messages"⟩ : Event Nat Nat))).1
      = [ContainerCall.Messages [7] "a"]
    ∧ messagesCallsFor "b" (ExtApplication.iteration
        (returning (fun (f : Nat) (b : List Nat) => b.filter (fun m => decide (f ≤ m))))
        ⟨[("a", 5), ("b", 100)]⟩
        (Select.messageChan (⟨Resource.messages [1, 7], "messages"⟩ : Event Nat Nat))).1
      = [] :=
  ⟨by decide,
   (@mainLoop_messages_delivers_each_match_once Nat Nat Nat
      (fun (f : Nat) (b : List Nat) => b.filter (fun m => decide (f ≤ m)))
      ⟨[("a", 5), ("b", 100)]⟩ (by decide) [1, 7] "messages").2.1 "a",
   (@mainLoop_messages_delivers_each_match_once Nat Nat Nat
      (fun (f : Nat) (b : List Nat) => b.filter (fun m => decide (f ≤ m)))
      ⟨[("a", 5), ("b", 100)]⟩ (by decide) [1, 7] "messages").2.1 "b"⟩

/-- The loop on a block-channel event carrying a block: `NewBlock` on that block, then
the rest of the events. -/
theorem mainLoop_blockChan_block (FilterMessages : Filter → List Message → Option (List Message))
    (app : ExtApplication Filter) (b : Block) (name : String)
    (rest : List (Select Block Message)) :
    app.mainLoop FilterMessages (Select.blockChan ⟨Resource.block b, name⟩ :: rest) =
      (ContainerCall.NewBlock b :: (app.mainLoop FilterMessages rest).1,
       (app.mainLoop FilterMessages rest).2) := by
  simp [ExtApplication.mainLoop, ExtApplication.iteration]

/-- The loop fed block-channel events only makes no `Messages` call. -/
theorem mainLoop_blockChan_no_messages
    (FilterMessages : Filter → List Message → Option (List Message))
    (app : ExtApplication Filter) (es : List (Event Block Message))
    (msgs : List Message) (id : String) :
    ContainerCall.Messages msgs id ∉ (app.mainLoop FilterMessages (es.map Select.blockChan)).1 := by
  induction es with
  | nil => simp [ExtApplication.mainLoop]
  | cons e es ih =>
    obtain ⟨r, name⟩ := e
    cases r with
    | block b =>
      rw [List.map_cons, mainLoop_blockChan_block]
      simpa using ih
    | nil => simpa [ExtApplication.mainLoop, ExtApplication.iteration] using ih
    | messages ms => simpa [ExtApplication.mainLoop, ExtApplication.iteration] using ih
    | other tag => simpa [ExtApplication.mainLoop, ExtApplication.iteration] using ih

/-- The loop fed message-channel events only makes no `NewBlock` call. -/
theorem mainLoop_messageChan_no_newBlock
    (FilterMessages : Filter → List Message → Option (List Message))
    (app : ExtApplication Filter) (es : List (Event Block Message)) (b : Block) :
    ContainerCall.NewBlock b ∉ (app.mainLoop FilterMessages (es.map Select.messageChan)).1 := by
  induction es with
  | nil => simp [ExtApplication.mainLoop]
  | cons e es ih =>
    obtain ⟨r, name⟩ := e
    cases r with
    | messages ms =>
      have hcalls : ContainerCall.NewBlock b ∉
          (rangeFilters FilterMessages ms app.filters :
            List (ContainerCall Block Message) × LoopStatus).1 := by
        intro hb
        obtain ⟨m, i, h⟩ := rangeFilters_mem_isMessages FilterMessages ms app.filters _ hb
        cases h
      cases hr : (rangeFilters FilterMessages ms app.filters :
          List (ContainerCall Block Message) × LoopStatus) with
      | mk calls st =>
        rw [hr] at hcalls
        cases st <;>
          simp [ExtApplication.mainLoop, ExtApplication.iteration, hr, hcalls, ih]
    | nil => simpa [ExtApplication.mainLoop, ExtApplication.iteration] using ih
    | block b' => simpa [ExtApplication.mainLoop, ExtApplication.iteration] using ih
    | other tag => simpa [ExtApplication.mainLoop, ExtApplication.iteration] using ih

/-- The loop fed block-channel events that all carry a block calls `NewBlock` once per
event, in order, and is still running. -/
theorem mainLoop_blockChan_blocks
    (FilterMessages : Filter → List Message → Option (List Message))
    (app : ExtApplication Filter) (bs : List (Block × String)) :
    app.mainLoop FilterMessages
        (bs.map (fun p => Select.blockChan (⟨Resource.block p.1, p.2⟩ : Event Block Message))) =
      (bs.map (fun p => ContainerCall.NewBlock p.1), LoopStatus.running) := by
  induction bs with
  | nil => rfl
  | cons p bs ih =>
    rw [List.map_cons, mainLoop_blockChan_block, ih]
    rfl

/-- C5: in the dispatch loop a block-channel event never causes a `Messages` call and a
message-channel event never causes a `NewBlock` call, whatever the payload; a
block-channel event carrying block `b` causes exactly the call `NewBlock(b)`; a
block-channel event whose payload is not a block, and a message-channel event whose
payload is not a message batch, cause no call at all, and the loop goes on with the next
event. The same holds of the whole loop: on a block-channel event carrying `b` it calls
`NewBlock(b)` once and goes on with the following events; fed block-channel events only it
never calls `Messages`; fed message-channel events only it never calls `NewBlock`; fed
block-channel events that carry blocks it makes exactly one `NewBlock` call per event, in
order. -/
theorem mainLoop_topic_isolation
    (FilterMessages : Filter → List Message → Option (List Message))
    (app : ExtApplication Filter) :
    (∀ (e : Event Block Message) msgs id,
        ContainerCall.Messages msgs id ∉ (app.iteration FilterMessages (Select.blockChan e)).1)
    ∧ (∀ (e : Event Block Message) b,
        ContainerCall.NewBlock b ∉ (app.iteration FilterMessages (Select.messageChan e)).1)
    ∧ (∀ (b : Block) name,
        app.iteration FilterMessages
            (Select.blockChan (⟨Resource.block b, name⟩ : Event Block Message))
          = ([ContainerCall.NewBlock b], LoopStatus.running))
    ∧ (∀ name (rest : List (Select Block Message)),
        app.iteration FilterMessages
            (Select.blockChan (⟨Resource.nil, name⟩ : Event Block Message))
          = ([], LoopStatus.running)
        ∧ app.mainLoop FilterMessages (Select.blockChan ⟨Resource.nil, name⟩ :: rest)
          = app.mainLoop FilterMessages rest)
    ∧ (∀ ms name (rest : List (Select Block Message)),
        app.iteration FilterMessages
            (Select.blockChan (⟨Resource.messages ms, name⟩ : Event Block Message))
          = ([], LoopStatus.running)
        ∧ app.mainLoop FilterMessages (Select.blockChan ⟨Resource.messages ms, name⟩ :: rest)
          = app.mainLoop FilterMessages rest)
    ∧ (∀ tag name (rest : List (Select Block Message)),
        app.iteration FilterMessages
            (Select.blockChan (⟨Resource.other tag, name⟩ : Event Block Message))
          = ([], LoopStatus.running)
        ∧ app.mainLoop FilterMessages (Select.blockChan ⟨Resource.other tag, name⟩ :: rest)
          = app.mainLoop FilterMessages rest)
    ∧ (∀ name (rest : List (Select Block Message)),
        app.iteration FilterMessages
            (Select.messageChan (⟨Resource.nil, name⟩ : Event Block Message))
          = ([], LoopStatus.running)
        ∧ app.mainLoop FilterMessages (Select.messageChan ⟨Resource.nil, name⟩ :: rest)
          = app.mainLoop FilterMessages rest)
    ∧ (∀ (b : Block) name (rest : List (Select Block Message)),
        app.iteration FilterMessages (Select.messageChan ⟨Resource.block b, name⟩)
          = ([], LoopStatus.running)
        ∧ app.mainLoop FilterMessages (Select.messageChan ⟨Resource.block b, name⟩ :: rest)
          = app.mainLoop FilterMessages rest)
    ∧ (∀ tag name (rest : List (Select Block Message)),
        app.iteration FilterMessages
            (Select.messageChan (⟨Resource.other tag, name⟩ : Event Block Message))
          = ([], LoopStatus.running)
        ∧ app.mainLoop FilterMessages (Select.messageChan ⟨Resource.other tag, name⟩ :: rest)
          = app.mainLoop FilterMessages rest)
    ∧ (∀ (b : Block) name (rest : List (Select Block Message)),
        app.mainLoop FilterMessages (Select.blockChan ⟨Resource.block b, name⟩ :: rest) =
          (ContainerCall.NewBlock b :: (app.mainLoop FilterMessages rest).1,
           (app.mainLoop FilterMessages rest).2))
    ∧ (∀ (es : List (Event Block Message)) msgs id,
        ContainerCall.Messages msgs id ∉
          (app.mainLoop FilterMessages (es.map Select.blockChan)).1)
    ∧ (∀ (es : List (Event Block Message)) b,
        ContainerCall.NewBlock b ∉
          (app.mainLoop FilterMessages (es.map Select.messageChan)).1)
    ∧ (∀ bs : List (Block × String),
        app.mainLoop FilterMessages
            (bs.map (fun p =>
              Select.blockChan (⟨Resource.block p.1, p.2⟩ : Event Block Message))) =
          (bs.map (fun p => ContainerCall.NewBlock p.1), LoopStatus.running)) := by
  refine ⟨?_, ?_, ?_, ?_, ?_, ?_, ?_, ?_, ?_,
    mainLoop_blockChan_block FilterMessages app,
    mainLoop_blockChan_no_messages FilterMessages app,
    mainLoop_messageChan_no_newBlock FilterMessages app,
    mainLoop_blockChan_blocks FilterMessages app⟩
  · intro e msgs id
    obtain ⟨r, name⟩ := e
    cases r <;> simp [ExtApplication.iteration]
  · intro e b hb
    obtain ⟨r, name⟩ := e
    cases r with
    | messages ms =>
      obtain ⟨msgs, id, h⟩ :=
        rangeFilters_mem_isMessages FilterMessages ms app.filters _ hb
      cases h
    | nil => simp [ExtApplication.iteration] at hb
    | block b' => simp [ExtApplication.iteration] at hb
    | other tag => simp [ExtApplication.iteration] at hb
  · intro b name
    rfl
  all_goals
    intros
    simp [ExtApplication.mainLoop, ExtApplication.iteration]

/-- C9 (as the code behaves): a panic of `FilterMessages` for one filter is not
recovered by the dispatch loop. When the filter map is ranged over as `pre`, then the
panicking filter, then `post`, the loop aborts at the panicking filter: the filters of
`pre` have had their non-empty matches delivered through `Messages`, no filter of `post`
is evaluated, and no later event is handled. -/
theorem mainLoop_panic_aborts
    (FilterMessages : Filter → List Message → Option (List Message))
    (app : ExtApplication Filter) (pre post : GoMap String Filter) (id : String) (f : Filter)
    (B : List Message) (name : String) (rest : List (Select Block Message))
    (hfilters : app.filters = pre ++ (id, f) :: post)
    (hpre : ∀ e ∈ pre, (FilterMessages e.2 B).isSome = true)
    (hpanic : FilterMessages f B = none) :
    app.mainLoop FilterMessages (Select.messageChan ⟨Resource.messages B, name⟩ :: rest) =
      (pre.flatMap (fun e =>
        match FilterMessages e.2 B with
        | some msgs => if msgs.length > 0 then [ContainerCall.Messages msgs e.1] else []
        | none => []), LoopStatus.panicked) := by
  have h := @rangeFilters_until_panic Block Message Filter FilterMessages B pre post id f hpre hpanic
  simp only [ExtApplication.mainLoop, ExtApplication.iteration, hfilters, h]

/-- Witness for C9 (as the code behaves): filter `a` returns its batch, filter `b` panics,
filter `c` would return its batch; only `a` is delivered and the loop has panicked. -/
theorem mainLoop_panic_aborts_witness :
    (∀ e ∈ ([("a", 1)] : GoMap String Nat),
        ((fun (f : Nat) (b : List Nat) => if f = 0 then none else some b) e.2 [7]).isSome = true)
    ∧ ExtApplication.mainLoop
        (fun (f : Nat) (b : List Nat) => if f = 0 then none else some b)
        ⟨[("a", 1), ("b", 0), ("c", 2)]⟩
        [Select.messageChan (⟨Resource.messages [7], "messages"⟩ : Event Nat Nat),
         Select.blockChan ⟨Resource.block 3, "newBlock"⟩]
      = ([ContainerCall.Messages [7] "a"], LoopStatus.panicked) :=
  ⟨by decide,
   @mainLoop_panic_aborts Nat Nat Nat
     (fun (f : Nat) (b : List Nat) => if f = 0 then none else some b)
     ⟨[("a", 1), ("b", 0), ("c", 2)]⟩ [("a", 1)] [("c", 2)] "b" 0 [7] "messages"
     [Select.blockChan ⟨Resource.block 3, "newBlock"⟩] rfl (by decide) rfl⟩

/-- Counterexample to C9: with filters `b` (whose matching panics) and `c` (whose matching
returns the non-empty batch `[7]`), one message-batch event leaves the loop panicked and
`c` is never delivered. -/
theorem mainLoop_panic_not_isolated :
    (fun (f : Nat) (b : List Nat) => if f = 0 then none else some b) 2 [7] = some [7]
    ∧ (ExtApplication.mainLoop
          (fun (f : Nat) (b : List Nat) => if f = 0 then none else some b)
          ⟨[("b", 0), ("c", 2)]⟩
          [Select.messageChan (⟨Resource.messages [7], "messages"⟩ : Event Nat Nat)]).2 = LoopStatus.panicked
    ∧ ContainerCall.Messages [7] "c" ∉
        (ExtApplication.mainLoop
          (fun (f : Nat) (b : List Nat) => if f = 0 then none else some b)
          ⟨[("b", 0), ("c", 2)]⟩
          [Select.messageChan (⟨Resource.messages [7], "messages"⟩ : Event Nat Nat)]).1 := by
  decide

end SessionFacts

/-! ## Session start and stop -/

section LifecycleFacts

variable {Err : Type}

/-- C7 (the code at a complete run): `run` with `Create` succeeding, followed by `stop`,
subscribes once on `"newBlock"` and once on `"messages"` and unsubscribes once on
`"newBlock"`, but never unsubscribes on `"messages"`. -/
theorem run_complete_subscription_counts :
    (ExtApplication.run (none : Option Err)).calls.countP (isSubscribe "newBlock") = 1
    ∧ (ExtApplication.run (none : Option Err)).calls.countP (isSubscribe "messages") = 1
    ∧ (ExtApplication.run (none : Option Err)).calls.countP (isUnsubscribe "newBlock") = 1
    ∧ (ExtApplication.run (none : Option Err)).calls.countP (isUnsubscribe "messages") = 0 := by
  refine ⟨?_, ?_, ?_, ?_⟩ <;>
    simp [ExtApplication.run, ExtApplication.stop, isSubscribe, isUnsubscribe, List.countP_cons]

/-- C8 (as the code behaves): when `Create()` returns a non-nil error `err`, `run` performs
exactly the calls `Engine`, `SetVar("eth")`, `SetVar("ui")`, `Create`, `Errorln(err)`: no
`Subscribe` on any topic, no launch of the dispatch loop, `Create` exactly once; the
failure is logged through `logger.Errorln` and `run` hands no value back to its caller. -/
theorem run_create_failure_aborts (err : Err) :
    (ExtApplication.run (some err)).calls =
      [SessionCall.Engine, SessionCall.SetVar "eth", SessionCall.SetVar "ui",
       SessionCall.Create, SessionCall.Errorln err]
    ∧ (ExtApplication.run (some err)).calls.countP isAnySubscribe = 0
    ∧ (ExtApplication.run (some err)).calls.countP isGoMainLoop = 0
    ∧ (ExtApplication.run (some err)).calls.countP isCreate = 1
    ∧ (ExtApplication.run (some err)).results = [] := by
  refine ⟨rfl, ?_, ?_, ?_, rfl⟩ <;>
    simp [ExtApplication.run, isAnySubscribe, isGoMainLoop, isCreate, List.countP_cons]

/-- Counterexample to C8: when `Create()` fails with the error `"no window"`, no error
value is handed back to the caller of `run`. -/
theorem run_create_failure_not_reported :
    ¬ ∃ e, e ∈ (ExtApplication.run (some "no window")).results := by
  simp [ExtApplication.run]

end LifecycleFacts

/-! ## The filter registry -/

section RegistryFacts

variable {Block Message Object : Type}

theorem registerFilter_filterCallbacks (MessagesToJson : Option Object → List Message → String)
    (self : UiLib Block Message Object) (object : Option Object) (seed : Int) :
    (self.RegisterFilter MessagesToJson object seed).filterCallbacks = self.filterCallbacks :=
  rfl

theorem registerFilterCallback_filters (self : UiLib Block Message Object) (seed cbSeed : Int) :
    (self.RegisterFilterCallback seed cbSeed).filters = self.filters :=
  rfl

theorem registerFilterCallback_getD_self (self : UiLib Block Message Object)
    (seed cbSeed : Int) :
    (self.RegisterFilterCallback seed cbSeed).filterCallbacks.getD seed =
      self.filterCallbacks.getD seed ++ [cbSeed] := by
  simp [UiLib.RegisterFilterCallback, GoMap.getD_set_self]

theorem registerFilterCallback_getD_ne (self : UiLib Block Message Object)
    {seed seed' : Int} (cbSeed : Int) (hne : seed' ≠ seed) :
    (self.RegisterFilterCallback seed cbSeed).filterCallbacks.getD seed' =
      self.filterCallbacks.getD seed' := by
  simp [UiLib.RegisterFilterCallback, GoMap.getD_set_ne _ _ hne]

theorem uninstallFilter_filterCallbacks (self : UiLib Block Message Object) (seed : Int) :
    (self.UninstallFilter seed).1.filterCallbacks = self.filterCallbacks := by
  unfold UiLib.UninstallFilter
  cases self.filters.get? seed <;> rfl

/-- Firing the filter under `seed` in a registry whose filter map is the one `RegisterFilter`
just wrote: one delivery per entry of the current listener list, in order. -/
theorem fireMessageCallback_registered (MessagesToJson : Option Object → List Message → String)
    (self ui : UiLib Block Message Object) (object : Option Object) (seed : Int)
    (messages : List Message)
    (hui : ui.filters = (self.RegisterFilter MessagesToJson object seed).filters) :
    ui.fireMessageCallback seed messages =
      (ui.filterCallbacks.getD seed).map (fun callbackSeed =>
        RootCall.invokeFilterCallback (MessagesToJson object messages) seed callbackSeed) := by
  simp [UiLib.fireMessageCallback, hui, UiLib.RegisterFilter, GoMap.get?_set_self,
    NewJSFilterFromMap]

/-- A run of `RegisterFilterCallback` calls, in order. -/
theorem foldl_registerFilterCallback (regs : List (Int × Int))
    (ui : UiLib Block Message Object) (F : Int) :
    (regs.foldl (fun u r => u.RegisterFilterCallback r.1 r.2) ui).filters = ui.filters
    ∧ (regs.foldl (fun u r => u.RegisterFilterCallback r.1 r.2) ui).filterCallbacks.getD F =
      ui.filterCallbacks.getD F ++ (regs.filter (fun r => decide (r.1 = F))).map Prod.snd := by
  induction regs generalizing ui with
  | nil => simp
  | cons r regs ih =>
    obtain ⟨seed, cb⟩ := r
    obtain ⟨ih₁, ih₂⟩ := ih (ui.RegisterFilterCallback seed cb)
    refine ⟨by simpa [registerFilterCallback_filters] using ih₁, ?_⟩
    simp only [List.foldl_cons]
    rw [ih₂]
    by_cases h : seed = F
    · subst h
      simp [registerFilterCallback_getD_self, List.filter_cons]
    · have h' : F ≠ seed := fun h₁ => h h₁.symm
      simp [registerFilterCallback_getD_ne ui cb h', List.filter_cons, h]

theorem deliveriesTo_map_length (payload : String) (seed L : Int) (l : List Int) :
    (deliveriesTo L (l.map (fun callbackSeed =>
        RootCall.invokeFilterCallback payload seed callbackSeed))).length = l.count L := by
  induction l with
  | nil => simp [deliveriesTo]
  | cons a l ih =>
    simp only [deliveriesTo] at ih
    by_cases h : a = L
    · subst h
      simp [deliveriesTo, List.filter_cons, ih]
    · simp [deliveriesTo, List.filter_cons, h, ih, List.count_cons]

/-- C2: listener ids are not deduplicated. After `RegisterFilter(object, F)` and two calls
`RegisterFilterCallback(F, L)`, one invocation of the message callback of `F` delivers to
the listeners already in the list and then twice to `L` (exactly two deliveries on a
fresh registry). In general, after any run of `RegisterFilterCallback` calls, the listener
list of `F` is the old list followed by the ids registered for `F` in registration order,
and one invocation produces one `invokeFilterCallback` per entry of that list, in that
order, so the number of deliveries to a listener is its number of occurrences. -/
theorem registerFilterCallback_duplicates_deliver
    (MessagesToJson : Option Object → List Message → String)
    (self : UiLib Block Message Object) (object : Option Object) (F L : Int)
    (regs : List (Int × Int)) (messages : List Message) :
    ((((self.RegisterFilter MessagesToJson object F).RegisterFilterCallback F L).RegisterFilterCallback
          F L).fireMessageCallback F messages =
        (self.filterCallbacks.getD F ++ [L, L]).map (fun callbackSeed =>
          RootCall.invokeFilterCallback (MessagesToJson object messages) F callbackSeed))
    ∧ ((((NewUiLib : UiLib Block Message Object).RegisterFilter MessagesToJson object F).RegisterFilterCallback
          F L).RegisterFilterCallback F L).fireMessageCallback F messages =
        [RootCall.invokeFilterCallback (MessagesToJson object messages) F L,
         RootCall.invokeFilterCallback (MessagesToJson object messages) F L]
    ∧ (regs.foldl (fun u r => u.RegisterFilterCallback r.1 r.2)
          (self.RegisterFilter MessagesToJson object F)).filterCallbacks.getD F =
        self.filterCallbacks.getD F ++ (regs.filter (fun r => decide (r.1 = F))).map Prod.snd
    ∧ (regs.foldl (fun u r => u.RegisterFilterCallback r.1 r.2)
          (self.RegisterFilter MessagesToJson object F)).fireMessageCallback F messages =
        ((regs.foldl (fun u r => u.RegisterFilterCallback r.1 r.2)
          (self.RegisterFilter MessagesToJson object F)).filterCallbacks.getD F).map
          (fun callbackSeed =>
            RootCall.invokeFilterCallback (MessagesToJson object messages) F callbackSeed)
    ∧ ((regs.foldl (fun u r => u.RegisterFilterCallback r.1 r.2)
          (self.RegisterFilter MessagesToJson object F)).fireMessageCallback F messages).length =
        ((regs.foldl (fun u r => u.RegisterFilterCallback r.1 r.2)
          (self.RegisterFilter MessagesToJson object F)).filterCallbacks.getD F).length
    ∧ (∀ L' : Int,
        (deliveriesTo L' ((regs.foldl (fun u r => u.RegisterFilterCallback r.1 r.2)
          (self.RegisterFilter MessagesToJson object F)).fireMessageCallback F messages)).length =
        ((regs.foldl (fun u r => u.RegisterFilterCallback r.1 r.2)
          (self.RegisterFilter MessagesToJson object F)).filterCallbacks.getD F).count L') := by
  have hgen := foldl_registerFilterCallback regs (self.RegisterFilter MessagesToJson object F) F
  have hfire := fireMessageCallback_registered MessagesToJson self
    (regs.foldl (fun u r => u.RegisterFilterCallback r.1 r.2)
      (self.RegisterFilter MessagesToJson object F)) object F messages hgen.1
  have htwice : ∀ s : UiLib Block Message Object,
      (((s.RegisterFilter MessagesToJson object F).RegisterFilterCallback F L).RegisterFilterCallback
          F L).fireMessageCallback F messages =
        (s.filterCallbacks.getD F ++ [L, L]).map (fun callbackSeed =>
          RootCall.invokeFilterCallback (MessagesToJson object messages) F callbackSeed) := by
    intro s
    rw [fireMessageCallback_registered MessagesToJson s
        (((s.RegisterFilter MessagesToJson object F).RegisterFilterCallback
          F L).RegisterFilterCallback F L) object F messages rfl,
      registerFilterCallback_getD_self, registerFilterCallback_getD_self,
      registerFilter_filterCallbacks]
    simp
  refine ⟨htwice self, ?_, ?_, hfire, ?_, ?_⟩
  · rw [htwice]
    simp [NewUiLib, GoMap.getD, GoMap.get?]
  · simpa [registerFilter_filterCallbacks] using hgen.2
  · rw [hfire]
    simp
  · intro L'
    rw [hfire]
    exact deliveriesTo_map_length _ _ _ _

/-- C3: `UninstallFilter(id)` on a registry holding `filter` under `id` calls
`filter.Uninstall()` and leaves a filter map with no entry under `id` in which every
other id keeps its filter; on a registry with no filter under `id` it does nothing: the
registry (filter map and listener lists) is returned unchanged and no call is made. In
both cases the listener lists are unchanged. -/
theorem uninstallFilter_removes_only_that_entry (self : UiLib Block Message Object) (id : Int) :
    (∀ filter, self.filters.get? id = some filter →
        (self.UninstallFilter id).1.filters = self.filters.delete id
        ∧ (self.UninstallFilter id).1.filters.get? id = none
        ∧ (∀ k, k ≠ id → (self.UninstallFilter id).1.filters.get? k = self.filters.get? k)
        ∧ (self.UninstallFilter id).1.filterCallbacks = self.filterCallbacks
        ∧ (self.UninstallFilter id).2 = [filter])
    ∧ (self.filters.get? id = none → self.UninstallFilter id = (self, [])) := by
  constructor
  · intro filter h
    have hf : (self.UninstallFilter id).1.filters = self.filters.delete id := by
      simp [UiLib.UninstallFilter, h]
    refine ⟨hf, ?_, ?_, uninstallFilter_filterCallbacks self id, ?_⟩
    · rw [hf]
      exact GoMap.get?_delete_self _ _
    · intro k hk
      rw [hf]
      exact GoMap.get?_delete_ne _ hk
    · simp [UiLib.UninstallFilter, h]
  · intro h
    simp [UiLib.UninstallFilter, h]

/-- Witness for C3: a registry with a filter under `1` and none under `5`. -/
theorem uninstallFilter_removes_only_that_entry_witness :
    ((((NewUiLib : UiLib Nat Nat Nat).RegisterFilterString "chain" 1).UninstallFilter
        1).1.filters.get? 1).isNone = true
    ∧ ((NewUiLib : UiLib Nat Nat Nat).RegisterFilterString "chain" 1).UninstallFilter 5 =
        ((NewUiLib : UiLib Nat Nat Nat).RegisterFilterString "chain" 1, []) :=
  ⟨by
      rw [((uninstallFilter_removes_only_that_entry
        ((NewUiLib : UiLib Nat Nat Nat).RegisterFilterString "chain" 1) 1).1 _ rfl).2.1]
      rfl,
   (uninstallFilter_removes_only_that_entry
      ((NewUiLib : UiLib Nat Nat Nat).RegisterFilterString "chain" 1) 5).2 rfl⟩

/-- C4: listener registration is independent of filter creation.
`RegisterFilterCallback(F, L)` appends `L` to the listener list of `F` and leaves the
filter map as it is, whether or not a filter exists under `F`. A listener bound before
`RegisterFilter(object, F)` and one bound after it both receive a delivery when the message
callback of `F` fires. A listener bound to an id with no filter is kept in the list, and
firing that id delivers nothing. -/
theorem registerFilterCallback_independent_of_filter
    (MessagesToJson : Option Object → List Message → String)
    (self : UiLib Block Message Object) (object : Option Object) (F L L₁ L₂ : Int)
    (messages : List Message) (block : Block) :
    (self.RegisterFilterCallback F L).filters = self.filters
    ∧ (self.RegisterFilterCallback F L).filterCallbacks.getD F =
        self.filterCallbacks.getD F ++ [L]
    ∧ ((((self.RegisterFilterCallback F L₁).RegisterFilter MessagesToJson object
          F).RegisterFilterCallback F L₂).fireMessageCallback F messages =
        (self.filterCallbacks.getD F ++ [L₁, L₂]).map (fun callbackSeed =>
          RootCall.invokeFilterCallback (MessagesToJson object messages) F callbackSeed))
    ∧ RootCall.invokeFilterCallback (MessagesToJson object messages) F L₁ ∈
        (((self.RegisterFilterCallback F L₁).RegisterFilter MessagesToJson object
          F).RegisterFilterCallback F L₂).fireMessageCallback F messages
    ∧ RootCall.invokeFilterCallback (MessagesToJson object messages) F L₂ ∈
        (((self.RegisterFilterCallback F L₁).RegisterFilter MessagesToJson object
          F).RegisterFilterCallback F L₂).fireMessageCallback F messages
    ∧ (self.filters.get? F = none →
        L ∈ (self.RegisterFilterCallback F L).filterCallbacks.getD F
        ∧ (self.RegisterFilterCallback F L).filters.get? F = none
        ∧ (self.RegisterFilterCallback F L).fireMessageCallback F messages = []
        ∧ (self.RegisterFilterCallback F L).fireBlockCallback F block = []) := by
  have hfire :
      (((self.RegisterFilterCallback F L₁).RegisterFilter MessagesToJson object
          F).RegisterFilterCallback F L₂).fireMessageCallback F messages =
        (self.filterCallbacks.getD F ++ [L₁, L₂]).map (fun callbackSeed =>
          RootCall.invokeFilterCallback (MessagesToJson object messages) F callbackSeed) := by
    rw [fireMessageCallback_registered MessagesToJson (self.RegisterFilterCallback F L₁)
        (((self.RegisterFilterCallback F L₁).RegisterFilter MessagesToJson object
          F).RegisterFilterCallback F L₂) object F messages rfl,
      registerFilterCallback_getD_self, registerFilter_filterCallbacks,
      registerFilterCallback_getD_self]
    simp
  refine ⟨rfl, registerFilterCallback_getD_self self F L, hfire, ?_, ?_, ?_⟩
  · rw [hfire]
    exact List.mem_map.mpr ⟨L₁, by simp, rfl⟩
  · rw [hfire]
    exact List.mem_map.mpr ⟨L₂, by simp, rfl⟩
  · intro h
    refine ⟨?_, h, ?_, ?_⟩
    · rw [registerFilterCallback_getD_self]
      simp
    · simp [UiLib.fireMessageCallback, registerFilterCallback_filters, h]
    · simp [UiLib.fireBlockCallback, registerFilterCallback_filters, h]

/-- Witness for C4: on a fresh registry, listener `9` bound to the id `4`, which has no
filter, is kept and firing `4` delivers nothing. -/
theorem registerFilterCallback_independent_of_filter_witness :
    (NewUiLib : UiLib Nat Nat Nat).filters.get? 4 = none
    ∧ (9 : Int) ∈ ((NewUiLib : UiLib Nat Nat Nat).RegisterFilterCallback 4 9).filterCallbacks.getD 4
    ∧ ((NewUiLib : UiLib Nat Nat Nat).RegisterFilterCallback 4 9).fireMessageCallback 4 [1, 2]
        = [] :=
  ⟨rfl,
   ((registerFilterCallback_independent_of_filter (fun _ _ => "[]")
      (NewUiLib : UiLib Nat Nat Nat) none 4 9 7 8 [1, 2] 0).2.2.2.2.2 rfl).1,
   ((registerFilterCallback_independent_of_filter (fun _ _ => "[]")
      (NewUiLib : UiLib Nat Nat Nat) none 4 9 7 8 [1, 2] 0).2.2.2.2.2 rfl).2.2.1⟩

theorem registerFilterString_filterCallbacks (self : UiLib Block Message Object)
    (typ : String) (seed : Int) :
    (self.RegisterFilterString typ seed).filterCallbacks = self.filterCallbacks :=
  rfl

/-- Firing a block on the filter under `seed` in a registry whose filter map is the one
`RegisterFilterString("chain", seed)` just wrote: one signal-only delivery per entry of
the current listener list. -/
theorem fireBlockCallback_chain (self ui : UiLib Block Message Object) (seed : Int)
    (block : Block)
    (hui : ui.filters = (self.RegisterFilterString "chain" seed).filters) :
    ui.fireBlockCallback seed block =
      (ui.filterCallbacks.getD seed).map (fun callbackSeed =>
        RootCall.invokeFilterCallback "\x7b\x7d" seed callbackSeed) := by
  simp [UiLib.fireBlockCallback, hui, UiLib.RegisterFilterString, GoMap.get?_set_self,
    NewJSFilterFromMap]

/-- C6: `RegisterFilterString(typ, id)` stores under `id` a filter built from no criteria
and without a message callback, replacing whatever was under `id` and leaving every other
id and the listener lists alone; firing a message batch on it delivers nothing. When `typ`
is `"chain"` the filter has a block callback that, for any block, produces one delivery
with the empty payload `{}` tagged `id` per listener bound to `id`, also for a listener
bound afterwards, and exactly one delivery when one listener is bound. For any other
`typ` the filter has no block callback either and a block delivers nothing. -/
theorem registerFilterString_chain_signal (self : UiLib Block Message Object) (typ : String)
    (id L : Int) (messages : List Message) (block : Block) :
    (∃ filter, (self.RegisterFilterString typ id).filters.get? id = some filter
        ∧ filter.object = none ∧ filter.seed = id ∧ filter.MessageCallback = none
        ∧ (typ = "chain" → filter.BlockCallback.isSome = true)
        ∧ (typ ≠ "chain" → filter.BlockCallback = none))
    ∧ (∀ k, k ≠ id → (self.RegisterFilterString typ id).filters.get? k = self.filters.get? k)
    ∧ (self.RegisterFilterString typ id).filterCallbacks = self.filterCallbacks
    ∧ (self.RegisterFilterString typ id).fireMessageCallback id messages = []
    ∧ (typ = "chain" →
        (self.RegisterFilterString typ id).fireBlockCallback id block =
          (self.filterCallbacks.getD id).map (fun callbackSeed =>
            RootCall.invokeFilterCallback "\x7b\x7d" id callbackSeed)
        ∧ ((self.RegisterFilterString typ id).RegisterFilterCallback id L).fireBlockCallback
            id block =
          (self.filterCallbacks.getD id ++ [L]).map (fun callbackSeed =>
            RootCall.invokeFilterCallback "\x7b\x7d" id callbackSeed)
        ∧ (((NewUiLib : UiLib Block Message Object).RegisterFilterString typ
            id).RegisterFilterCallback id L).fireBlockCallback id block =
          [RootCall.invokeFilterCallback "\x7b\x7d" id L])
    ∧ (typ ≠ "chain" →
        (self.RegisterFilterString typ id).fireBlockCallback id block = []
        ∧ ((self.RegisterFilterString typ id).RegisterFilterCallback id L).fireBlockCallback
            id block = []) := by
  refine ⟨?_, ?_, rfl, ?_, ?_, ?_⟩
  · by_cases h : typ = "chain"
    · subst h
      exact ⟨_, GoMap.get?_set_self _ _ _, rfl, rfl, rfl, fun _ => rfl, fun hne => absurd rfl hne⟩
    · refine ⟨_, GoMap.get?_set_self _ _ _, ?_, ?_, ?_, fun hc => absurd hc h, fun _ => ?_⟩ <;>
        simp [h, NewJSFilterFromMap]
  · intro k hk
    exact GoMap.get?_set_ne _ _ hk
  · by_cases h : typ = "chain" <;>
      simp [UiLib.fireMessageCallback, UiLib.RegisterFilterString, GoMap.get?_set_self, h,
        NewJSFilterFromMap]
  · intro h
    subst h
    have hbound : ∀ s : UiLib Block Message Object,
        ((s.RegisterFilterString "chain" id).RegisterFilterCallback id L).fireBlockCallback
            id block =
          (s.filterCallbacks.getD id ++ [L]).map (fun callbackSeed =>
            RootCall.invokeFilterCallback "\x7b\x7d" id callbackSeed) := by
      intro s
      rw [fireBlockCallback_chain s
          ((s.RegisterFilterString "chain" id).RegisterFilterCallback id L) id block rfl,
        registerFilterCallback_getD_self, registerFilterString_filterCallbacks]
    refine ⟨?_, hbound self, ?_⟩
    · rw [fireBlockCallback_chain self (self.RegisterFilterString "chain" id) id block rfl,
        registerFilterString_filterCallbacks]
    · rw [hbound]
      simp [NewUiLib, GoMap.getD, GoMap.get?]
  · intro h
    constructor <;>
      simp [UiLib.fireBlockCallback, UiLib.RegisterFilterString, UiLib.RegisterFilterCallback,
        GoMap.get?_set_self, h, NewJSFilterFromMap]

/-- Witness for C6: a `"chain"` filter under `2` with the one listener `11` gives exactly
one signal-only delivery for a block; a `"pending"` filter gives none. -/
theorem registerFilterString_chain_signal_witness :
    ("chain" = "chain" ∧ "pending" ≠ "chain")
    ∧ (((NewUiLib : UiLib Nat Nat Nat).RegisterFilterString "chain"
          2).RegisterFilterCallback 2 11).fireBlockCallback 2 0 =
        [RootCall.invokeFilterCallback "\x7b\x7d" 2 11]
    ∧ (((NewUiLib : UiLib Nat Nat Nat).RegisterFilterCallback 2 11).RegisterFilterString
          "pending" 2).fireBlockCallback 2 0 = [] :=
  ⟨by decide,
   ((registerFilterString_chain_signal (NewUiLib : UiLib Nat Nat Nat) "chain" 2 11 [] 0).2.2.2.2.1
      rfl).2.2,
   ((registerFilterString_chain_signal ((NewUiLib : UiLib Nat Nat Nat).RegisterFilterCallback 2 11)
      "pending" 2 11 [] 0).2.2.2.2.2 (by decide)).1⟩

/-- C10: `UninstallFilter(id)` never changes the listener lists. After
`RegisterFilter(c, id); RegisterFilterCallback(id, L); UninstallFilter(id);
RegisterFilter(c', id)` the listener list of `id` is the old list followed by `L`, and the
message callback of the re-registered filter delivers, with the payload of the new
filter, to every listener of that list, `L` included. -/
theorem uninstallFilter_keeps_listeners
    (MessagesToJson : Option Object → List Message → String)
    (self : UiLib Block Message Object) (c c' : Option Object) (id L : Int)
    (messages : List Message) :
    (self.UninstallFilter id).1.filterCallbacks = self.filterCallbacks
    ∧ ((((self.RegisterFilter MessagesToJson c id).RegisterFilterCallback id L).UninstallFilter
          id).1.RegisterFilter MessagesToJson c' id).filterCallbacks.getD id =
        self.filterCallbacks.getD id ++ [L]
    ∧ L ∈ ((((self.RegisterFilter MessagesToJson c id).RegisterFilterCallback id L).UninstallFilter
          id).1.RegisterFilter MessagesToJson c' id).filterCallbacks.getD id
    ∧ ((((self.RegisterFilter MessagesToJson c id).RegisterFilterCallback id L).UninstallFilter
          id).1.RegisterFilter MessagesToJson c' id).fireMessageCallback id messages =
        (self.filterCallbacks.getD id ++ [L]).map (fun callbackSeed =>
          RootCall.invokeFilterCallback (MessagesToJson c' messages) id callbackSeed)
    ∧ RootCall.invokeFilterCallback (MessagesToJson c' messages) id L ∈
        ((((self.RegisterFilter MessagesToJson c id).RegisterFilterCallback id L).UninstallFilter
          id).1.RegisterFilter MessagesToJson c' id).fireMessageCallback id messages := by
  have hlist :
      ((((self.RegisterFilter MessagesToJson c id).RegisterFilterCallback id L).UninstallFilter
          id).1.RegisterFilter MessagesToJson c' id).filterCallbacks.getD id =
        self.filterCallbacks.getD id ++ [L] := by
    rw [registerFilter_filterCallbacks, uninstallFilter_filterCallbacks,
      registerFilterCallback_getD_self, registerFilter_filterCallbacks]
  have hfire := fireMessageCallback_registered MessagesToJson
    (((self.RegisterFilter MessagesToJson c id).RegisterFilterCallback id L).UninstallFilter id).1
    ((((self.RegisterFilter MessagesToJson c id).RegisterFilterCallback id L).UninstallFilter
      id).1.RegisterFilter MessagesToJson c' id) c' id messages rfl
  rw [hlist] at hfire
  refine ⟨uninstallFilter_filterCallbacks self id, hlist, ?_, hfire, ?_⟩
  · rw [hlist]
    simp
  · rw [hfire]
    exact List.mem_map.mpr ⟨L, by simp, rfl⟩

end RegistryFacts

end Ethereal
